import Mathlib

/-!
Verification of the xv6 `stat` user program (`src/xv6-bonus/user/stat.c`).

The program is embedded as a pure function from the command-line argument
vector and a filesystem environment (the behaviour of the `open` and `fstat`
system calls) to a trace of observable events.  The source of `main` is:

  if(argc < 2){ printf(1, "Enter at pathname\n"); exit(); }
  int fd;
  fd = open(argv[1], 0);
  struct stat st;
  fstat(fd, &st);
  printf(1, "type: %d\n", st.type);
  printf(1, "dev: %d\n", st.dev);
  printf(1, "ino: %d\n", st.ino);
  printf(1, "nlink: %d\n", st.nlink);
  printf(1, "size: %d\n", st.size);
  printf(1, "checksum: %x\n", st.checksum);
  exit();

Note that the return values of `open` and `fstat` are never checked: on a
failing `open`, `fd` is `-1` and `fstat` leaves the local record `st`
untouched, yet the six report lines are still printed.
-/

namespace StatTool

/-- Modelled from the spec: the `FileStatus` record (`struct stat` of the
repository file `stat.h`, which is not under `src/`).  §3 of the spec lists the
six semantic fields: `type`, `dev`, `ino`, `nlink`, `size` as integers and
`checksum` as a content-derived integer printed unsigned in hexadecimal. -/
structure Stat where
  type : Int
  dev : Int
  ino : Int
  nlink : Int
  size : Int
  checksum : Nat
deriving DecidableEq

/-- Digit character for a value `d < 16`: `0`–`9` then lowercase `a`–`f`. -/
def digitChar (d : Nat) : Char :=
  if d < 10 then Char.ofNat (48 + d) else Char.ofNat (87 + d)

/-- Fuel-driven digit accumulation, mirroring the do/while digit loop of a
`printint`-style renderer: emit the digits of `n` in base `b`, least
significant first into the accumulator, so the result reads most significant
first.  Always emits at least one digit. -/
def digitsCore (b : Nat) : Nat → Nat → List Char → List Char
  | 0, _, acc => acc
  | fuel + 1, n, acc =>
    if n / b = 0 then digitChar (n % b) :: acc
    else digitsCore b fuel (n / b) (digitChar (n % b) :: acc)

/-- Render `n` in base `b` (no sign, at least one digit). -/
def natToBase (b n : Nat) : String :=
  String.mk (digitsCore b (n + 1) n [])

/-- Modelled from the spec: decimal rendering used by `printf` for `%d`
(the repository file `user/printf.c` is not under `src/`).  §4.1 step 4: the
first five fields "are printed as decimal integers"; a negative value is
rendered with a leading minus sign. -/
def intToDec (x : Int) : String :=
  if x < 0 then "-" ++ natToBase 10 x.natAbs else natToBase 10 x.toNat

/-- Modelled from the spec: hexadecimal rendering used by `printf` for `%x`
(the repository file `user/printf.c` is not under `src/`).  §4.1 step 4 and §8:
"`checksum` is printed in hexadecimal, unprefixed", and the §8 example
renders `0x1a2b` as the lowercase, unprefixed string `1a2b`. -/
def natToHex (n : Nat) : String :=
  natToBase 16 n

/-- The filesystem environment: the behaviour of the two external
collaborator operations (§6), plus the initial (uninitialised) contents of
the stack-allocated `struct stat st`.  `openRes` returns the file
descriptor, `-1` on failure (xv6 convention); `fstatRes` returns `none`
when the query fails, in which case the local record keeps `initStat`. -/
structure FsEnv where
  openRes : String → Int
  fstatRes : Int → Option Stat
  initStat : Stat

/-- Observable events of one execution. -/
inductive Event where
  | openCall : String → Int → Int → Event
  | fstatCall : Int → Bool → Event
  | write : String → Event
  | closeFd : Int → Event
  | exitCall : Event
deriving DecidableEq

/-- The usage message printed when no path argument is supplied. -/
def usageLine : String := "Enter at pathname\n"

/-- The six report lines, exactly as formatted by the six `printf` calls of
`stat.c`, in source order. -/
def reportLines (st : Stat) : List String :=
  ["type: " ++ intToDec st.type ++ "\n",
   "dev: " ++ intToDec st.dev ++ "\n",
   "ino: " ++ intToDec st.ino ++ "\n",
   "nlink: " ++ intToDec st.nlink ++ "\n",
   "size: " ++ intToDec st.size ++ "\n",
   "checksum: " ++ natToHex st.checksum ++ "\n"]

/-- Modelled from the spec: the events performed by `exit()` (the xv6 kernel
`exit`, not under `src/`).  §4.1 step 5 ("Release the handle (implicitly or
explicitly) and terminate") and §5 ("guaranteed release on all exit paths"):
process exit closes every open descriptor, then terminates. -/
def exitEvents (openFds : List Int) : List Event :=
  openFds.map Event.closeFd ++ [Event.exitCall]

/-- The embedding of `main` from `src/xv6-bonus/user/stat.c`: given the
argument vector (including the program name) and the filesystem
environment, the trace of events.  Faithful points: the usage branch prints
and exits at once; otherwise `open(argv[1], 0)` is called, its result is
not checked, `fstat(fd, &st)` is called, its result is not checked (on
failure `st` keeps its initial contents), the six lines are printed, and
`exit()` runs (releasing the descriptor when `open` had succeeded). -/
def statMain (argv : List String) (env : FsEnv) : List Event :=
  if argv.length < 2 then
    [Event.write usageLine, Event.exitCall]
  else
    let path := argv.getD 1 ""
    let fd := env.openRes path
    let r := env.fstatRes fd
    let st := r.getD env.initStat
    Event.openCall path 0 fd ::
    Event.fstatCall fd r.isSome ::
    ((reportLines st).map Event.write ++
      exitEvents (if 0 ≤ fd then [fd] else []))

/-- The strings written to standard output, in order. -/
def writesOf (evs : List Event) : List String :=
  evs.filterMap fun e =>
    match e with
    | Event.write s => some s
    | _ => none

/-- The full byte stream written to standard output. -/
def stdoutOf (evs : List Event) : String :=
  String.join (writesOf evs)

/-- Number of `open` calls in a trace. -/
def countOpens : List Event → Nat
  | [] => 0
  | Event.openCall _ _ _ :: es => countOpens es + 1
  | _ :: es => countOpens es

/-- Number of `fstat` calls in a trace. -/
def countFstats : List Event → Nat
  | [] => 0
  | Event.fstatCall _ _ :: es => countFstats es + 1
  | _ :: es => countFstats es

/-- Number of `exit` calls in a trace. -/
def countExits : List Event → Nat
  | [] => 0
  | Event.exitCall :: es => countExits es + 1
  | _ :: es => countExits es

/-- The all-zero record, standing for (one possible value of) the
uninitialised stack contents of `st`. -/
def zeroStat : Stat := ⟨0, 0, 0, 0, 0, 0⟩

/-- An environment in which every `open` fails (returns `-1`) and every
`fstat` fails, as for a nonexistent path. -/
def envOpenFail : FsEnv :=
  ⟨fun _ => -1, fun _ => none, zeroStat⟩

/-- An environment in which `open` succeeds with descriptor 3 and the query
returns the all-zero record. -/
def envOkZero : FsEnv :=
  ⟨fun _ => 3, fun fd => if fd = 3 then some zeroStat else none, zeroStat⟩

/-- The record of the §8 example scenario: `notes.txt`, 42 bytes, device 1,
inode 17, one link, regular-file type 2, checksum `0x1a2b`. -/
def notesStat : Stat := ⟨2, 1, 17, 1, 42, 0x1a2b⟩

/-- An environment realising the §8 example scenario. -/
def envNotes : FsEnv :=
  ⟨fun _ => 3, fun fd => if fd = 3 then some notesStat else none, zeroStat⟩

/-- A second successful environment returning the all-zero record, with a
different descriptor and different uninitialised stack contents. -/
def envOkZero2 : FsEnv :=
  ⟨fun _ => 5, fun fd => if fd = 5 then some zeroStat else none, notesStat⟩

lemma writesOf_append (l1 l2 : List Event) :
    writesOf (l1 ++ l2) = writesOf l1 ++ writesOf l2 := by
  simp [writesOf, List.filterMap_append]

lemma writesOf_map_write (ls : List String) :
    writesOf (ls.map Event.write) = ls := by
  induction ls with
  | nil => rfl
  | cons s ls ih => simp [writesOf] at ih ⊢; exact ih

lemma writesOf_exitEvents (fds : List Int) :
    writesOf (exitEvents fds) = [] := by
  induction fds with
  | nil => rfl
  | cons fd fds ih => simpa [writesOf, exitEvents] using ih

/-- The strings written by a run that got a path argument are exactly the
six report lines of the record obtained (or kept) by the unchecked query. -/
lemma writesOf_statMain (argv : List String) (env : FsEnv)
    (h2 : 2 ≤ argv.length) :
    writesOf (statMain argv env) =
      reportLines ((env.fstatRes (env.openRes (argv.getD 1 ""))).getD env.initStat) := by
  have hn : ¬ argv.length < 2 := Nat.not_lt.mpr h2
  unfold statMain
  rw [if_neg hn]
  show writesOf (Event.openCall _ 0 _ :: Event.fstatCall _ _ :: _) = _
  simp only [writesOf, List.filterMap_cons]
  rw [← writesOf, writesOf_append, writesOf_map_write, writesOf_exitEvents,
    List.append_nil]

lemma countExits_append (l1 l2 : List Event) :
    countExits (l1 ++ l2) = countExits l1 + countExits l2 := by
  induction l1 with
  | nil => simp [countExits]
  | cons e es ih => cases e <;> simp [countExits, ih] <;> omega

lemma countExits_map_write (ls : List String) :
    countExits (ls.map Event.write) = 0 := by
  induction ls with
  | nil => rfl
  | cons s ls ih => simpa [countExits] using ih

lemma countExits_map_closeFd (fds : List Int) :
    countExits (fds.map Event.closeFd) = 0 := by
  induction fds with
  | nil => rfl
  | cons fd fds ih => simpa [countExits] using ih

lemma countExits_statMain (argv : List String) (env : FsEnv) :
    countExits (statMain argv env) = 1 := by
  unfold statMain
  split
  · rfl
  · show countExits (Event.openCall _ 0 _ :: Event.fstatCall _ _ :: _) = 1
    simp [countExits, exitEvents, countExits_append, countExits_map_write,
      countExits_map_closeFd, List.append_eq]

lemma countOpens_append (l1 l2 : List Event) :
    countOpens (l1 ++ l2) = countOpens l1 + countOpens l2 := by
  induction l1 with
  | nil => simp [countOpens]
  | cons e es ih => cases e <;> simp [countOpens, ih] <;> omega

lemma countOpens_map_write (ls : List String) :
    countOpens (ls.map Event.write) = 0 := by
  induction ls with
  | nil => rfl
  | cons s ls ih => simpa [countOpens] using ih

lemma countOpens_map_closeFd (fds : List Int) :
    countOpens (fds.map Event.closeFd) = 0 := by
  induction fds with
  | nil => rfl
  | cons fd fds ih => simpa [countOpens] using ih

lemma countOpens_statMain (argv : List String) (env : FsEnv) :
    countOpens (statMain argv env) = if argv.length < 2 then 0 else 1 := by
  unfold statMain
  split
  · rfl
  · show countOpens (Event.openCall _ 0 _ :: Event.fstatCall _ _ :: _) = 1
    simp [countOpens, exitEvents, countOpens_append, countOpens_map_write,
      countOpens_map_closeFd, List.append_eq]

lemma countFstats_append (l1 l2 : List Event) :
    countFstats (l1 ++ l2) = countFstats l1 + countFstats l2 := by
  induction l1 with
  | nil => simp [countFstats]
  | cons e es ih => cases e <;> simp [countFstats, ih] <;> omega

lemma countFstats_map_write (ls : List String) :
    countFstats (ls.map Event.write) = 0 := by
  induction ls with
  | nil => rfl
  | cons s ls ih => simpa [countFstats] using ih

lemma countFstats_map_closeFd (fds : List Int) :
    countFstats (fds.map Event.closeFd) = 0 := by
  induction fds with
  | nil => rfl
  | cons fd fds ih => simpa [countFstats] using ih

lemma countFstats_statMain (argv : List String) (env : FsEnv) :
    countFstats (statMain argv env) = if argv.length < 2 then 0 else 1 := by
  unfold statMain
  split
  · rfl
  · show countFstats (Event.openCall _ 0 _ :: Event.fstatCall _ _ :: _) = 1
    simp [countFstats, exitEvents, countFstats_append, countFstats_map_write,
      countFstats_map_closeFd, List.append_eq]

/-- Every trace ends with the exit event. -/
lemma statMain_getLast (argv : List String) (env : FsEnv) :
    (statMain argv env).getLast? = some Event.exitCall := by
  unfold statMain
  split
  · rfl
  · show (Event.openCall _ 0 _ :: Event.fstatCall _ _ ::
      (_ ++ exitEvents _)).getLast? = _
    rw [exitEvents]
    rw [show ∀ (a b : Event) (X C : List Event),
        a :: b :: (X ++ (C ++ [Event.exitCall]))
          = (a :: b :: (X ++ C)) ++ [Event.exitCall] from
      fun a b X C => by simp]
    rw [List.getLast?_concat]

/-- C1: on a valid path whose open and query succeed, exactly six lines are
printed, in the fixed order type, dev, ino, nlink, size, checksum, each
beginning with its literal label, the first five values in decimal, the
checksum in unprefixed hexadecimal, and the printed size is the `size`
field of the queried record. -/
theorem six_line_report (argv : List String) (env : FsEnv) (st : Stat)
    (h2 : 2 ≤ argv.length)
    (ho : 0 ≤ env.openRes (argv.getD 1 ""))
    (hq : env.fstatRes (env.openRes (argv.getD 1 "")) = some st) :
    writesOf (statMain argv env) =
      ["type: " ++ intToDec st.type ++ "\n",
       "dev: " ++ intToDec st.dev ++ "\n",
       "ino: " ++ intToDec st.ino ++ "\n",
       "nlink: " ++ intToDec st.nlink ++ "\n",
       "size: " ++ intToDec st.size ++ "\n",
       "checksum: " ++ natToHex st.checksum ++ "\n"] := by
  rw [writesOf_statMain argv env h2, hq]
  rfl

/-- Witness for C1 at a concrete invocation and environment. -/
theorem six_line_report_witness :
    2 ≤ (["stat", "f"] : List String).length ∧
    0 ≤ envOkZero.openRes ((["stat", "f"] : List String).getD 1 "") ∧
    envOkZero.fstatRes (envOkZero.openRes ((["stat", "f"] : List String).getD 1 ""))
      = some zeroStat ∧
    writesOf (statMain ["stat", "f"] envOkZero) =
      ["type: " ++ intToDec zeroStat.type ++ "\n",
       "dev: " ++ intToDec zeroStat.dev ++ "\n",
       "ino: " ++ intToDec zeroStat.ino ++ "\n",
       "nlink: " ++ intToDec zeroStat.nlink ++ "\n",
       "size: " ++ intToDec zeroStat.size ++ "\n",
       "checksum: " ++ natToHex zeroStat.checksum ++ "\n"] :=
  ⟨by decide, by decide, by decide,
    six_line_report ["stat", "f"] envOkZero zeroStat (by decide) (by decide)
      (by decide)⟩

/-- C2 counterexample: in an environment where the open of the path fails
(returns `-1`) and the query of the invalid handle fails, the program still
prints the six-line field report (built from the untouched local record),
so no diagnosable failure state is produced. -/
theorem open_failure_still_reports :
    envOpenFail.openRes "nofile" = -1 ∧
    envOpenFail.fstatRes (envOpenFail.openRes "nofile") = none ∧
    writesOf (statMain ["stat", "nofile"] envOpenFail) =
      ["type: 0\n", "dev: 0\n", "ino: 0\n", "nlink: 0\n", "size: 0\n",
       "checksum: 0\n"] := by
  decide

/-- C2 amended: when the path does not name an existing entry (open returns
`-1` and the query of the invalid handle fails), the program does not
crash — it terminates via the same exit call — but it performs no check:
it still prints the six-line field report, whose values are the untouched
initial contents of the local record. -/
theorem open_failure_unchecked (argv : List String) (env : FsEnv)
    (h2 : 2 ≤ argv.length)
    (ho : env.openRes (argv.getD 1 "") = -1)
    (hq : env.fstatRes (-1) = none) :
    writesOf (statMain argv env) = reportLines env.initStat ∧
    (statMain argv env).getLast? = some Event.exitCall := by
  constructor
  · rw [writesOf_statMain argv env h2, ho, hq]
    rfl
  · exact statMain_getLast argv env

/-- Witness for the amended C2 at a concrete invocation and environment. -/
theorem open_failure_unchecked_witness :
    2 ≤ (["stat", "nofile"] : List String).length ∧
    envOpenFail.openRes ((["stat", "nofile"] : List String).getD 1 "") = -1 ∧
    envOpenFail.fstatRes (-1) = none ∧
    (writesOf (statMain ["stat", "nofile"] envOpenFail)
        = reportLines envOpenFail.initStat ∧
      (statMain ["stat", "nofile"] envOpenFail).getLast? = some Event.exitCall) :=
  ⟨by decide, by decide, by decide,
    open_failure_unchecked ["stat", "nofile"] envOpenFail (by decide) (by decide)
      (by decide)⟩

/-- C3: with fewer than one path argument the program prints exactly the
usage line `Enter at pathname` and exits with no further action: the full
trace is that one write followed by the exit — no open, no query, no field
lines. -/
theorem usage_only (argv : List String) (env : FsEnv)
    (h : argv.length < 2) :
    statMain argv env =
      [Event.write "Enter at pathname\n", Event.exitCall] := by
  unfold statMain
  rw [if_pos h]
  rfl

/-- Witness for C3 at a concrete invocation. -/
theorem usage_only_witness :
    (["stat"] : List String).length < 2 ∧
    statMain ["stat"] envNotes =
      [Event.write "Enter at pathname\n", Event.exitCall] :=
  ⟨by decide, usage_only ["stat"] envNotes (by decide)⟩

/-- C4: every execution terminates via the same exit call — the final event
of every trace is the (payload-free) exit event, any two executions end
with the identical terminal event, and exactly one exit occurs. -/
theorem uniform_exit (argv argv2 : List String) (env env2 : FsEnv) :
    (statMain argv env).getLast? = some Event.exitCall ∧
    (statMain argv env).getLast? = (statMain argv2 env2).getLast? ∧
    countExits (statMain argv env) = 1 := by
  refine ⟨statMain_getLast argv env, ?_, countExits_statMain argv env⟩
  rw [statMain_getLast, statMain_getLast]

/-- C5 counterexample: a run whose open (and query) fail produces output
byte-identical to that of a fully successful run — so a failure of the
open or query operation is not user-visible. -/
theorem failure_invisible :
    envOpenFail.openRes "f" = -1 ∧
    (envOkZero.fstatRes (envOkZero.openRes "f")).isSome = true ∧
    writesOf (statMain ["stat", "f"] envOpenFail) =
      writesOf (statMain ["stat", "f"] envOkZero) := by
  decide

/-- C5 amended: each of the two operations is attempted at most once — no
retries — but failures of the open or query are not user-visible: the
output depends only on the final value of the local record, so a failing
run writes the same bytes as any run whose record value agrees. -/
theorem one_shot_no_retry (argv : List String) (env env2 : FsEnv)
    (h2 : 2 ≤ argv.length)
    (hrec : (env.fstatRes (env.openRes (argv.getD 1 ""))).getD env.initStat
      = (env2.fstatRes (env2.openRes (argv.getD 1 ""))).getD env2.initStat) :
    countOpens (statMain argv env) ≤ 1 ∧
    countFstats (statMain argv env) ≤ 1 ∧
    writesOf (statMain argv env) = writesOf (statMain argv env2) := by
  refine ⟨?_, ?_, ?_⟩
  · rw [countOpens_statMain]
    split <;> omega
  · rw [countFstats_statMain]
    split <;> omega
  · rw [writesOf_statMain argv env h2, writesOf_statMain argv env2 h2, hrec]

/-- Witness for the amended C5 at a concrete invocation: a failing
environment against a succeeding one that agree on the record value. -/
theorem one_shot_no_retry_witness :
    2 ≤ (["stat", "f"] : List String).length ∧
    (envOpenFail.fstatRes (envOpenFail.openRes ((["stat", "f"] : List String).getD 1 ""))).getD
        envOpenFail.initStat
      = (envOkZero.fstatRes (envOkZero.openRes ((["stat", "f"] : List String).getD 1 ""))).getD
        envOkZero.initStat ∧
    (countOpens (statMain ["stat", "f"] envOpenFail) ≤ 1 ∧
      countFstats (statMain ["stat", "f"] envOpenFail) ≤ 1 ∧
      writesOf (statMain ["stat", "f"] envOpenFail)
        = writesOf (statMain ["stat", "f"] envOkZero)) :=
  ⟨by decide, by decide,
    one_shot_no_retry ["stat", "f"] envOpenFail envOkZero (by decide) (by decide)⟩

/-- C6: an invocation that supplies a path argument performs exactly one
open call; when the open yields a handle (a nonnegative descriptor), that
handle is closed at exit, the last two events of the trace; and every
event of the trace is a write, the one open, the one query on that
descriptor, the close of that descriptor, or the exit. -/
theorem single_handle (argv : List String) (env : FsEnv)
    (h2 : 2 ≤ argv.length) :
    countOpens (statMain argv env) = 1 ∧
    (0 ≤ env.openRes (argv.getD 1 "") →
      ∃ pre, statMain argv env =
        pre ++ [Event.closeFd (env.openRes (argv.getD 1 "")), Event.exitCall]) ∧
    (∀ e ∈ statMain argv env,
      (∃ s, e = Event.write s) ∨
      e = Event.openCall (argv.getD 1 "") 0 (env.openRes (argv.getD 1 "")) ∨
      e = Event.fstatCall (env.openRes (argv.getD 1 ""))
            (env.fstatRes (env.openRes (argv.getD 1 ""))).isSome ∨
      e = Event.closeFd (env.openRes (argv.getD 1 "")) ∨
      e = Event.exitCall) := by
  have hn : ¬ argv.length < 2 := Nat.not_lt.mpr h2
  refine ⟨?_, ?_, ?_⟩
  · rw [countOpens_statMain, if_neg hn]
  · intro hfd
    refine ⟨Event.openCall (argv.getD 1 "") 0 (env.openRes (argv.getD 1 "")) ::
      Event.fstatCall (env.openRes (argv.getD 1 ""))
        (env.fstatRes (env.openRes (argv.getD 1 ""))).isSome ::
      (reportLines ((env.fstatRes (env.openRes (argv.getD 1 ""))).getD
        env.initStat)).map Event.write, ?_⟩
    unfold statMain
    rw [if_neg hn]
    simp only [List.getD_eq_getElem?_getD] at hfd
    simp [exitEvents, hfd]
  · intro e he
    unfold statMain at he
    rw [if_neg hn] at he
    by_cases hfd : 0 ≤ env.openRes (argv.getD 1 "")
    · simp only [if_pos hfd, exitEvents, List.mem_cons, List.mem_append,
        List.mem_map, List.mem_singleton] at he
      rcases he with rfl | rfl | ⟨s, _, rfl⟩ | ⟨a, rfl | hnil2, rfl⟩ | rfl | hnil
      · exact Or.inr (Or.inl rfl)
      · exact Or.inr (Or.inr (Or.inl rfl))
      · exact Or.inl ⟨s, rfl⟩
      · exact Or.inr (Or.inr (Or.inr (Or.inl rfl)))
      · exact absurd hnil2 (List.not_mem_nil _)
      · exact Or.inr (Or.inr (Or.inr (Or.inr rfl)))
      · exact absurd hnil (List.not_mem_nil _)
    · simp only [if_neg hfd, exitEvents, List.mem_cons, List.mem_append,
        List.mem_map, List.map_nil, List.mem_singleton, List.nil_append] at he
      rcases he with rfl | rfl | ⟨s, _, rfl⟩ | rfl | hnil
      · exact Or.inr (Or.inl rfl)
      · exact Or.inr (Or.inr (Or.inl rfl))
      · exact Or.inl ⟨s, rfl⟩
      · exact Or.inr (Or.inr (Or.inr (Or.inr rfl)))
      · exact absurd hnil (List.not_mem_nil _)

/-- Witness for C6 at a concrete invocation and environment. -/
theorem single_handle_witness :
    2 ≤ (["stat", "f"] : List String).length ∧
    countOpens (statMain ["stat", "f"] envOkZero) = 1 :=
  ⟨by decide, (single_handle ["stat", "f"] envOkZero (by decide)).1⟩

/-- C7: the report is a deterministic function of the queried record — two
invocations whose queries return the same FileStatus record write
byte-identical output, whatever else differs between the environments. -/
theorem deterministic_report (argv argv2 : List String) (env env2 : FsEnv)
    (st : Stat)
    (h2 : 2 ≤ argv.length) (h2b : 2 ≤ argv2.length)
    (hq : env.fstatRes (env.openRes (argv.getD 1 "")) = some st)
    (hqb : env2.fstatRes (env2.openRes (argv2.getD 1 ""))= some st) :
    stdoutOf (statMain argv env) = stdoutOf (statMain argv2 env2) := by
  unfold stdoutOf
  rw [writesOf_statMain argv env h2, writesOf_statMain argv2 env2 h2b, hq, hqb]
  rfl

/-- Witness for C7: two different environments returning the same record. -/
theorem deterministic_report_witness :
    2 ≤ (["stat", "f"] : List String).length ∧
    2 ≤ (["stat", "f", "ignored"] : List String).length ∧
    envOkZero.fstatRes (envOkZero.openRes ((["stat", "f"] : List String).getD 1 ""))
      = some zeroStat ∧
    envOkZero2.fstatRes
        (envOkZero2.openRes ((["stat", "f", "ignored"] : List String).getD 1 ""))
      = some zeroStat ∧
    stdoutOf (statMain ["stat", "f"] envOkZero)
      = stdoutOf (statMain ["stat", "f", "ignored"] envOkZero2) :=
  ⟨by decide, by decide, by decide, by decide,
    deterministic_report ["stat", "f"] ["stat", "f", "ignored"] envOkZero
      envOkZero2 zeroStat (by decide) (by decide) (by decide) (by decide)⟩

/-- C8: on the §8 example record (type 2, dev 1, ino 17, nlink 1, size 42,
checksum 0x1a2b) the program prints exactly the six lines of the example,
with the checksum rendered as the unprefixed hexadecimal string `1a2b`. -/
theorem example_scenario :
    writesOf (statMain ["stat", "notes.txt"] envNotes) =
      ["type: 2\n", "dev: 1\n", "ino: 17\n", "nlink: 1\n", "size: 42\n",
       "checksum: 1a2b\n"] ∧
    stdoutOf (statMain ["stat", "notes.txt"] envNotes) =
      "type: 2\ndev: 1\nino: 17\nnlink: 1\nsize: 42\nchecksum: 1a2b\n" := by
  decide

/-- C9: every execution terminates by invoking exit: the trace of any run
is a prefix containing no exit event followed by the single exit call —
main never returns normally, and on each path it stops at the first exit
reached. -/
theorem always_exits (argv : List String) (env : FsEnv) :
    ∃ pre, statMain argv env = pre ++ [Event.exitCall] ∧
      Event.exitCall ∉ pre := by
  unfold statMain
  split
  · exact ⟨[Event.write usageLine], rfl, by simp⟩
  · refine ⟨Event.openCall (argv.getD 1 "") 0 (env.openRes (argv.getD 1 "")) ::
      Event.fstatCall (env.openRes (argv.getD 1 ""))
        (env.fstatRes (env.openRes (argv.getD 1 ""))).isSome ::
      ((reportLines ((env.fstatRes (env.openRes (argv.getD 1 ""))).getD
          env.initStat)).map Event.write ++
        (if 0 ≤ env.openRes (argv.getD 1 "")
          then [env.openRes (argv.getD 1 "")] else []).map Event.closeFd),
      ?_, ?_⟩
    · simp [exitEvents]
    · simp only [List.mem_cons, List.mem_append, List.mem_map]
      push_neg
      refine ⟨by simp, by simp, fun s _ => by simp, fun a _ => by simp⟩

/-- C10: arguments beyond the path are ignored — two invocations with at
least one path argument that agree on `argv[1]` produce identical traces
in the same environment, whatever further arguments differ. -/
theorem extra_args_ignored (argv argv2 : List String) (env : FsEnv)
    (h2 : 2 ≤ argv.length) (h2b : 2 ≤ argv2.length)
    (hp : argv.getD 1 "" = argv2.getD 1 "") :
    statMain argv env = statMain argv2 env := by
  unfold statMain
  rw [if_neg (Nat.not_lt.mpr h2), if_neg (Nat.not_lt.mpr h2b), hp]

/-- Witness for C10: the same path with and without extra arguments. -/
theorem extra_args_ignored_witness :
    2 ≤ (["stat", "f"] : List String).length ∧
    2 ≤ (["stat", "f", "x", "y"] : List String).length ∧
    (["stat", "f"] : List String).getD 1 ""
      = (["stat", "f", "x", "y"] : List String).getD 1 "" ∧
    statMain ["stat", "f"] envNotes = statMain ["stat", "f", "x", "y"] envNotes :=
  ⟨by decide, by decide, by decide,
    extra_args_ignored ["stat", "f"] ["stat", "f", "x", "y"] envNotes
      (by decide) (by decide) (by decide)⟩

end StatTool
